import Mathlib

/-!
Verification of the segment-fetch core of the sponsor-block client
(`src/client/user/segments.rs`).

Modelling conventions:

* The wire time values are `f32` in the source, but they are produced
  exclusively by JSON deserialization, and JSON encodes only finite decimal
  numbers; on those the `f32` comparisons `>`, `<` used by the code agree with
  the rational order.  Time values are therefore modelled as `Rat`.
* `u8` / `i32` become `Nat` / `Int`; the code performs no arithmetic on them,
  only the `locked != 0` comparison.
* Fallible Rust code returning `SponsorBlockResult<T>` becomes
  `Except SponsorBlockError T`.
* The network transport and JSON deserialization are external collaborators;
  the pipeline is modelled from the already-deserialized response value, and
  the outbound request is modelled as its URL plus its query-parameter list.
* Rust's `&s[0..n]` string slicing panics when `n` is out of bounds; that
  partiality is made explicit with `Option` (`none` = panic).
-/

namespace SponsorBlock

/-- Modelled from the spec: the error taxonomy of §7 (`error.rs` is not under
`src/`; only `segments.rs` is).  The variants `NoMatchingVideoHash`,
`BadData` and `HttpClient` are the ones named by the source file and its doc
comments. -/
inductive SponsorBlockError
  | HttpClient (status : Nat)
  | Deserialization (msg : String)
  | NoMatchingVideoHash
  | BadData (msg : String)
deriving DecidableEq

/-- Wire-level raw segment record (`RawSegment` in the source).  The
two-element array `segment: [f32; 2]` is modelled as a pair. -/
structure RawSegment where
  category : String
  action_type : String
  segment : Rat × Rat
  uuid : String
  locked : Nat
  votes : Int
  video_duration_upon_submission : Rat
deriving DecidableEq

/-- Wire-level hash bucket (`RawHashMatch` in the source, privacy mode
only). -/
structure RawHashMatch where
  video_id : String
  hash : String
  segments : List RawSegment
deriving DecidableEq

/-- Domain time section `{start, end}` for section-shaped segments. -/
structure TimeSection where
  start : Rat
  «end» : Rat
deriving DecidableEq

/-- Domain time point `{point}` for the Highlight kind. -/
structure TimePoint where
  point : Rat
deriving DecidableEq

/-- The closed set of segment kinds (`ActionableSegmentKind` in the crate). -/
inductive ActionableSegmentKind
  | Sponsor
  | UnpaidSelfPromotion
  | InteractionReminder
  | Highlight
  | IntermissionIntroAnimation
  | EndcardsCredits
  | PreviewRecap
  | NonMusic
deriving DecidableEq

/-- The tagged domain variant carried by a returned segment
(`ActionableSegment` in the crate): every kind carries a `TimeSection`
except `Highlight`, which carries a `TimePoint`. -/
inductive ActionableSegment
  | Sponsor : TimeSection → ActionableSegment
  | UnpaidSelfPromotion : TimeSection → ActionableSegment
  | InteractionReminder : TimeSection → ActionableSegment
  | Highlight : TimePoint → ActionableSegment
  | IntermissionIntroAnimation : TimeSection → ActionableSegment
  | EndcardsCredits : TimeSection → ActionableSegment
  | PreviewRecap : TimeSection → ActionableSegment
  | NonMusic : TimeSection → ActionableSegment
deriving DecidableEq

/-- Modelled from the spec: the action-type enumeration returned by the
external `api_convert_action_type` lookup (the enumeration itself is not
under `src/`); the service's wire action types are `skip` and `mute`. -/
inductive ActionType
  | Skip
  | Mute
deriving DecidableEq

/-- The domain output type (`Segment` in the crate), as assembled by
`fetch_segments_with_required` lines 174-227. -/
structure Segment where
  segment : ActionableSegment
  action_type : ActionType
  uuid : String
  locked : Bool
  votes : Int
  video_duration_upon_submission : Rat
deriving DecidableEq

/-- Modelled from the spec: `api_convert_segment_kind`, the external closed
category-string → kind lookup (`crate::api`, not under `src/`).  The spec
names `sponsor` → Sponsor and `poi_highlight` → Highlight explicitly; the
remaining kinds use the service's category tags; an unknown category is an
error, propagated as-is. -/
def api_convert_segment_kind (category : String) :
    Except SponsorBlockError ActionableSegmentKind :=
  if category = "sponsor" then .ok .Sponsor
  else if category = "selfpromo" then .ok .UnpaidSelfPromotion
  else if category = "interaction" then .ok .InteractionReminder
  else if category = "poi_highlight" then .ok .Highlight
  else if category = "intro" then .ok .IntermissionIntroAnimation
  else if category = "outro" then .ok .EndcardsCredits
  else if category = "preview" then .ok .PreviewRecap
  else if category = "music_offtopic" then .ok .NonMusic
  else .error (.BadData ("unknown segment kind: " ++ category))

/-- Modelled from the spec: `api_convert_action_type`, the external closed
action-string → enumeration lookup (`crate::api`, not under `src/`); an
unknown action string is an error, propagated as-is. -/
def api_convert_action_type (action : String) :
    Except SponsorBlockError ActionType :=
  if action = "skip" then .ok .Skip
  else if action = "mute" then .ok .Mute
  else .error (.BadData ("unknown action type: " ++ action))

/-- Rendering of a numeric time value by Rust's `{}` format specifier inside
the `format!` calls of the validation errors.  The exact digit string of the
standard library's float formatter is immaterial to the claims; what matters
is that the offending value is rendered into the message. -/
def fmtF32 (x : Rat) : String := toString x

/-- Normalization of one raw record into a domain `Segment`: the closure at
lines 154-228 of `segments.rs`.  The three range checks run in source order
(start > end, then start < 0, then end < 0); then the category and action
lookups run (short-circuiting, category first, as evaluation order of the
struct literal dictates); the Highlight kind keeps only `segment[0]`;
`locked` is coerced by `!= 0`; the remaining fields pass through. -/
def normalizeSegment (s : RawSegment) : Except SponsorBlockError Segment :=
  if s.segment.1 > s.segment.2 then
    .error (.BadData ("segment start (" ++ fmtF32 s.segment.1 ++ ") > end ("
      ++ fmtF32 s.segment.2 ++ ")"))
  else if s.segment.1 < 0 then
    .error (.BadData ("segment start (" ++ fmtF32 s.segment.1 ++ ") < 0"))
  else if s.segment.2 < 0 then
    .error (.BadData ("segment end (" ++ fmtF32 s.segment.2 ++ ") < 0"))
  else do
    let kind ← api_convert_segment_kind s.category
    let action ← api_convert_action_type s.action_type
    .ok {
      segment :=
        match kind with
        | .Sponsor =>
          .Sponsor { start := s.segment.1, «end» := s.segment.2 }
        | .UnpaidSelfPromotion =>
          .UnpaidSelfPromotion { start := s.segment.1, «end» := s.segment.2 }
        | .InteractionReminder =>
          .InteractionReminder { start := s.segment.1, «end» := s.segment.2 }
        | .Highlight =>
          .Highlight { point := s.segment.1 }
        | .IntermissionIntroAnimation =>
          .IntermissionIntroAnimation { start := s.segment.1, «end» := s.segment.2 }
        | .EndcardsCredits =>
          .EndcardsCredits { start := s.segment.1, «end» := s.segment.2 }
        | .PreviewRecap =>
          .PreviewRecap { start := s.segment.1, «end» := s.segment.2 }
        | .NonMusic =>
          .NonMusic { start := s.segment.1, «end» := s.segment.2 }
      action_type := action
      uuid := s.uuid
      locked := s.locked != 0
      votes := s.votes
      video_duration_upon_submission := s.video_duration_upon_submission }

/-- The whole-batch normalization
`video_segments.drain(..).map(|s| ...).collect::<Result<Vec<_>, _>>()`:
short-circuits on the first failing record, so an error anywhere yields no
partial list. -/
def normalizeSegments : List RawSegment → Except SponsorBlockError (List Segment)
  | [] => .ok []
  | s :: rest => do
    let seg ← normalizeSegment s
    let segs ← normalizeSegments rest
    .ok (seg :: segs)

/-- The bucket-scanning loop of privacy mode (lines 138-146): the first
bucket whose `video_id` equals the true identifier (exact, case-sensitive
`String` equality) wins and the loop breaks. -/
def findHashMatch : List RawHashMatch → String → Option (List RawSegment)
  | [], _ => none
  | h :: rest, video_id =>
    if h.video_id = video_id then some h.segments else findHashMatch rest video_id

/-- Privacy-mode decoding of the (already deserialized) response: the first
matching bucket's segment list, or the dedicated `NoMatchingVideoHash` error
when no bucket matches (lines 136-150). -/
def decodeResponsePrivate (response : List RawHashMatch) (video_id : String) :
    Except SponsorBlockError (List RawSegment) :=
  match findHashMatch response video_id with
  | some segs => .ok segs
  | none => .error .NoMatchingVideoHash

/-- Client configuration used by `fetch_segments_with_required`: the base
URL, the service name and (privacy mode) the hash-prefix length, all read
from `self`. -/
structure Client where
  base_url : String
  service : String
  hash_prefix_length : Nat
deriving DecidableEq

/-- The outbound request, reduced to what the code under verification
controls: the URL path and the ordered query-parameter list. -/
structure Request where
  url : String
  query : List (String × String)
deriving DecidableEq

/-- Modelled from the spec: `AcceptedCategories` (the type lives in
`crate::segment`, not under `src/`) is a caller-supplied set of category
tags. -/
abbrev AcceptedCategories := List String

/-- Modelled from the spec: `AcceptedCategories::gen_url_value`, the
URL-array serialization of the accepted categories into one query value
(protocol detail owned by the collaborator). -/
def gen_url_value (cats : AcceptedCategories) : String :=
  String.intercalate "," cats

/-- Modelled from the spec: `crate::util::to_url_array`, the URL-array
serialization of the required-segment id list into one query value. -/
def to_url_array (items : List String) : String :=
  String.intercalate "," items

/-- Rust string slicing `&s[0..n]`: in bounds it yields the first `n`
characters, out of bounds it panics (`none`).  The sliced value here is a
hex digest, which is ASCII, so byte and character indices coincide. -/
def sliceTo (s : String) (n : Nat) : Option String :=
  if n ≤ s.length then some (s.take n) else none

/-- The query parameters attached after the request is initialized (lines
120-125): `categories`, then `service`, then `requiredSegments` only when
the required list is non-empty. -/
def commonQuery (c : Client) (cats : AcceptedCategories)
    (required_segments : List String) : List (String × String) :=
  [("categories", gen_url_value cats), ("service", c.service)] ++
    (if required_segments.isEmpty then []
     else [("requiredSegments", to_url_array required_segments)])

/-- Plain-mode request building (lines 95-101 plus 120-125): the
`/skipSegments` endpoint with the plaintext `videoID` query parameter first,
then the common parameters. -/
def buildRequestPlain (c : Client) (video_id : String)
    (cats : AcceptedCategories) (required_segments : List String) : Request :=
  { url := c.base_url ++ "/skipSegments"
    query := ("videoID", video_id) :: commonQuery c cats required_segments }

/-- Privacy-mode request building (lines 102-118 plus 120-125).  `hashHex`
stands for `bytes_to_hex_string(Sha256::digest(video_id))` — the spec
treats the hashing primitive as a pure function string → hex digest whose
internals are out of scope.  The digest is sliced to
`hash_prefix_length` characters and appended to the endpoint path; `none`
models the slicing panic. -/
def buildRequestPrivate (hashHex : String → String) (c : Client)
    (video_id : String) (cats : AcceptedCategories)
    (required_segments : List String) : Option Request :=
  let video_id_hash := hashHex video_id
  match sliceTo video_id_hash c.hash_prefix_length with
  | none => none
  | some p =>
    some { url := c.base_url ++ "/skipSegments" ++ "/" ++ p
           query := commonQuery c cats required_segments }

/-- Privacy-mode response processing: decode (bucket disambiguation) then
normalize, composed exactly as lines 136-150 feed lines 152-229. -/
def processResponsePrivate (response : List RawHashMatch) (video_id : String) :
    Except SponsorBlockError (List Segment) :=
  (decodeResponsePrivate response video_id).bind normalizeSegments

/-- Plain-mode `fetch_segments_with_required`, as a pure function of the
deserialized response: the built request paired with the normalized
result. -/
def fetch_segments_with_required_plain (c : Client) (video_id : String)
    (cats : AcceptedCategories) (required_segments : List String)
    (response : List RawSegment) :
    Request × Except SponsorBlockError (List Segment) :=
  (buildRequestPlain c video_id cats required_segments,
   normalizeSegments response)

/-- Plain-mode `fetch_segments` (lines 38-45): delegates to
`fetch_segments_with_required` with an empty required list. -/
def fetch_segments_plain (c : Client) (video_id : String)
    (cats : AcceptedCategories) (response : List RawSegment) :
    Request × Except SponsorBlockError (List Segment) :=
  fetch_segments_with_required_plain c video_id cats [] response

/-- Privacy-mode `fetch_segments_with_required`, as a pure function of the
deserialized response; `none` models the slicing panic, which occurs before
any request is sent. -/
def fetch_segments_with_required_private (hashHex : String → String)
    (c : Client) (video_id : String) (cats : AcceptedCategories)
    (required_segments : List String) (response : List RawHashMatch) :
    Option (Request × Except SponsorBlockError (List Segment)) :=
  match buildRequestPrivate hashHex c video_id cats required_segments with
  | none => none
  | some req => some (req, processResponsePrivate response video_id)

/-- Privacy-mode `fetch_segments` (lines 38-45): delegates to
`fetch_segments_with_required` with an empty required list. -/
def fetch_segments_private (hashHex : String → String) (c : Client)
    (video_id : String) (cats : AcceptedCategories)
    (response : List RawHashMatch) :
    Option (Request × Except SponsorBlockError (List Segment)) :=
  fetch_segments_with_required_private hashHex c video_id cats [] response

/-- Well-formedness of a time section: both endpoints non-negative and
ordered. -/
def timeSectionOk (t : TimeSection) : Prop :=
  0 ≤ t.start ∧ t.start ≤ t.«end» ∧ 0 ≤ t.«end»

/-- Well-formedness of the time payload of a domain variant: a non-negative
point for Highlight, an ordered non-negative section for every other
kind. -/
def actionableTimesOk : ActionableSegment → Prop
  | .Sponsor t => timeSectionOk t
  | .UnpaidSelfPromotion t => timeSectionOk t
  | .InteractionReminder t => timeSectionOk t
  | .Highlight p => 0 ≤ p.point
  | .IntermissionIntroAnimation t => timeSectionOk t
  | .EndcardsCredits t => timeSectionOk t
  | .PreviewRecap t => timeSectionOk t
  | .NonMusic t => timeSectionOk t

/-- Every time value carried by a returned `Segment`, the
`video_duration_upon_submission` field included, is non-negative (and
sections are ordered).  This is the literal reading of the claimed
invariant; the code only validates the range payload, so this predicate is
where the claim and the code part ways. -/
def allCarriedTimesNonneg (seg : Segment) : Prop :=
  actionableTimesOk seg.segment ∧ 0 ≤ seg.video_duration_upon_submission

/-- Decidable equality of call results, so that the embedding can be
evaluated on concrete inputs. -/
instance {ε α : Type} [DecidableEq ε] [DecidableEq α] : DecidableEq (Except ε α) := fun a b =>
  match a, b with
  | .ok x, .ok y => decidable_of_iff (x = y) (by simp)
  | .error x, .error y => decidable_of_iff (x = y) (by simp)
  | .ok _, .error _ => .isFalse (by simp)
  | .error _, .ok _ => .isFalse (by simp)

/-- Concrete wire record with category `sponsor`, used to evaluate the
embedding. -/
def exSponsorRaw : RawSegment :=
  { category := "sponsor", action_type := "skip", segment := (1, 2)
    uuid := "abc", locked := 1, votes := 5
    video_duration_upon_submission := 10 }

/-- The domain segment produced by normalizing `exSponsorRaw`. -/
def exSponsorSeg : Segment :=
  { segment := .Sponsor { start := 1, «end» := 2 }, action_type := .Skip
    uuid := "abc", locked := true, votes := 5
    video_duration_upon_submission := 10 }

/-- Concrete wire record with a negative `videoDuration` field; its range
payload is valid, so it normalizes successfully. -/
def exNegDurRaw : RawSegment :=
  { category := "sponsor", action_type := "skip", segment := (1, 2)
    uuid := "abc", locked := 0, votes := 0
    video_duration_upon_submission := -3 }

/-- The domain segment produced by normalizing `exNegDurRaw`: it carries the
negative duration unchanged. -/
def exNegDurSeg : Segment :=
  { segment := .Sponsor { start := 1, «end» := 2 }, action_type := .Skip
    uuid := "abc", locked := false, votes := 0
    video_duration_upon_submission := -3 }

/-- Concrete wire record whose range is reversed (start 2 > end 1). -/
def exBadRaw : RawSegment :=
  { category := "sponsor", action_type := "skip", segment := (2, 1)
    uuid := "u", locked := 0, votes := 0
    video_duration_upon_submission := 0 }

/-- Concrete highlight wire record with range [3, 7]. -/
def exHighlightRaw : RawSegment :=
  { category := "poi_highlight", action_type := "skip", segment := (3, 7)
    uuid := "u", locked := 0, votes := 0
    video_duration_upon_submission := 0 }

/-- Concrete highlight wire record agreeing with `exHighlightRaw` except for
its `end` value. -/
def exHighlightRaw2 : RawSegment :=
  { category := "poi_highlight", action_type := "skip", segment := (3, 99)
    uuid := "u", locked := 0, votes := 0
    video_duration_upon_submission := 0 }

/-- The domain segment produced by normalizing `exHighlightRaw` (and
`exHighlightRaw2`): a time point at 3. -/
def exHighlightSeg : Segment :=
  { segment := .Highlight { point := 3 }, action_type := .Skip
    uuid := "u", locked := false, votes := 0
    video_duration_upon_submission := 0 }

/-- Concrete wire record with a non-zero, non-one `locked` value and a
`mute` action. -/
def exLockedRaw : RawSegment :=
  { category := "sponsor", action_type := "mute", segment := (1, 2)
    uuid := "u8", locked := 2, votes := -4
    video_duration_upon_submission := 9 }

/-- The domain segment produced by normalizing `exLockedRaw`. -/
def exLockedSeg : Segment :=
  { segment := .Sponsor { start := 1, «end» := 2 }, action_type := .Mute
    uuid := "u8", locked := true, votes := -4
    video_duration_upon_submission := 9 }

/-- Concrete hash bucket whose identifier differs from the query's. -/
def exBucketOther : RawHashMatch :=
  { video_id := "other", hash := "ff", segments := [exSponsorRaw] }

/-- Concrete hash bucket matching the query identifier `vid1`, with an empty
segment list. -/
def exBucketMatch : RawHashMatch :=
  { video_id := "vid1", hash := "ff", segments := [] }

/-- Concrete client configuration with a 4-character hash prefix. -/
def exClient : Client :=
  { base_url := "https://sponsor.ajay.app", service := "YouTube"
    hash_prefix_length := 4 }

/-- Concrete client configuration whose hash-prefix length exceeds the
64-character digest. -/
def exClient65 : Client :=
  { base_url := "https://sponsor.ajay.app", service := "YouTube"
    hash_prefix_length := 65 }

/-- A concrete 64-character hex digest. -/
def exDigest : String :=
  "0123456789abcdef0123456789abcdef0123456789abcdef0123456789abcdef"

/-- A concrete stand-in for the SHA-256 hex-digest function. -/
def exHashHex : String → String := fun _ => exDigest

/-- The request built by `buildRequestPrivate exHashHex exClient "vid1"
["sponsor"] []`. -/
def exPrivateRequest : Request :=
  { url := exClient.base_url ++ "/skipSegments" ++ "/"
      ++ (exHashHex "vid1").take exClient.hash_prefix_length
    query := commonQuery exClient ["sponsor"] [] }

/-- Inversion of a successful normalization: all three range checks passed,
both lookups succeeded, and the output is exactly the struct literal of
lines 174-227. -/
theorem normalizeSegment_ok_inv {s : RawSegment} {seg : Segment}
    (h : normalizeSegment s = .ok seg) :
    ¬ s.segment.1 > s.segment.2 ∧ ¬ s.segment.1 < 0 ∧ ¬ s.segment.2 < 0 ∧
    ∃ kind action,
      api_convert_segment_kind s.category = .ok kind ∧
      api_convert_action_type s.action_type = .ok action ∧
      seg = { segment :=
                match kind with
                | .Sponsor =>
                  .Sponsor { start := s.segment.1, «end» := s.segment.2 }
                | .UnpaidSelfPromotion =>
                  .UnpaidSelfPromotion { start := s.segment.1, «end» := s.segment.2 }
                | .InteractionReminder =>
                  .InteractionReminder { start := s.segment.1, «end» := s.segment.2 }
                | .Highlight =>
                  .Highlight { point := s.segment.1 }
                | .IntermissionIntroAnimation =>
                  .IntermissionIntroAnimation { start := s.segment.1, «end» := s.segment.2 }
                | .EndcardsCredits =>
                  .EndcardsCredits { start := s.segment.1, «end» := s.segment.2 }
                | .PreviewRecap =>
                  .PreviewRecap { start := s.segment.1, «end» := s.segment.2 }
                | .NonMusic =>
                  .NonMusic { start := s.segment.1, «end» := s.segment.2 }
              action_type := action
              uuid := s.uuid
              locked := s.locked != 0
              votes := s.votes
              video_duration_upon_submission := s.video_duration_upon_submission } := by
  unfold normalizeSegment at h
  by_cases h1 : s.segment.1 > s.segment.2
  · rw [if_pos h1] at h; exact absurd h (by simp)
  rw [if_neg h1] at h
  by_cases h2 : s.segment.1 < 0
  · rw [if_pos h2] at h; exact absurd h (by simp)
  rw [if_neg h2] at h
  by_cases h3 : s.segment.2 < 0
  · rw [if_pos h3] at h; exact absurd h (by simp)
  rw [if_neg h3] at h
  refine ⟨h1, h2, h3, ?_⟩
  cases hk : api_convert_segment_kind s.category with
  | error e => rw [hk] at h; exact absurd h (by simp [Bind.bind, Except.bind])
  | ok kind =>
    cases ha : api_convert_action_type s.action_type with
    | error e => rw [hk, ha] at h; exact absurd h (by simp [Bind.bind, Except.bind])
    | ok action =>
      rw [hk, ha] at h
      simp only [Bind.bind, Except.bind, Except.ok.injEq] at h
      exact ⟨kind, action, rfl, rfl, h.symm⟩

/-- Field pass-through of a successful normalization: uuid, votes, video
duration and the looked-up action type are copied unchanged, and `locked`
is the `!= 0` coercion of the wire value. -/
theorem normalizeSegment_ok_fields {s : RawSegment} {seg : Segment}
    (h : normalizeSegment s = .ok seg) :
    seg.uuid = s.uuid ∧ seg.locked = (s.locked != 0) ∧ seg.votes = s.votes ∧
    seg.video_duration_upon_submission = s.video_duration_upon_submission ∧
    api_convert_action_type s.action_type = .ok seg.action_type := by
  obtain ⟨-, -, -, kind, action, -, ha, rfl⟩ := normalizeSegment_ok_inv h
  exact ⟨rfl, rfl, rfl, rfl, ha⟩

/-- Successful batch normalization yields one output per input, in input
order: the i-th output is the normalization of the i-th input. -/
theorem normalizeSegments_ok_get {l : List RawSegment} {segs : List Segment}
    (h : normalizeSegments l = .ok segs) :
    segs.length = l.length ∧
    ∀ i (h1 : i < l.length) (h2 : i < segs.length),
      normalizeSegment (l.get ⟨i, h1⟩) = .ok (segs.get ⟨i, h2⟩) := by
  induction l generalizing segs with
  | nil =>
    unfold normalizeSegments at h
    simp only [Except.ok.injEq] at h
    subst h
    exact ⟨rfl, fun i h1 _ => absurd h1 (by simp)⟩
  | cons s rest ih =>
    unfold normalizeSegments at h
    cases hs : normalizeSegment s with
    | error e => rw [hs] at h; exact absurd h (by simp [Bind.bind, Except.bind])
    | ok seg =>
      rw [hs] at h
      cases hr : normalizeSegments rest with
      | error e => rw [hr] at h; exact absurd h (by simp [Bind.bind, Except.bind])
      | ok segsr =>
        rw [hr] at h
        simp only [Bind.bind, Except.bind, Except.ok.injEq] at h
        subst h
        obtain ⟨hlen, hget⟩ := ih hr
        refine ⟨by simp [hlen], ?_⟩
        intro i h1 h2
        match i with
        | 0 => exact hs
        | Nat.succ j =>
          exact hget j (by simpa using h1) (by simpa using h2)

/-- Every segment of a successful batch is the normalization of some input
record. -/
theorem normalizeSegments_ok_mem {l : List RawSegment} {segs : List Segment}
    (h : normalizeSegments l = .ok segs) :
    ∀ seg ∈ segs, ∃ r ∈ l, normalizeSegment r = .ok seg := by
  induction l generalizing segs with
  | nil =>
    unfold normalizeSegments at h
    simp only [Except.ok.injEq] at h
    subst h
    simp
  | cons s rest ih =>
    unfold normalizeSegments at h
    cases hs : normalizeSegment s with
    | error e => rw [hs] at h; exact absurd h (by simp [Bind.bind, Except.bind])
    | ok seg0 =>
      rw [hs] at h
      cases hr : normalizeSegments rest with
      | error e => rw [hr] at h; exact absurd h (by simp [Bind.bind, Except.bind])
      | ok segsr =>
        rw [hr] at h
        simp only [Bind.bind, Except.bind, Except.ok.injEq] at h
        subst h
        intro seg hseg
        rcases List.mem_cons.mp hseg with rfl | hmem
        · exact ⟨s, by simp, hs⟩
        · obtain ⟨r, hrmem, hok⟩ := ih hr seg hmem
          exact ⟨r, by simp [hrmem], hok⟩

/-- A single failing record anywhere in the batch makes the whole batch
fail: the collected result is some error, never a partial list. -/
theorem normalizeSegments_mem_error {l : List RawSegment} {r : RawSegment}
    {e : SponsorBlockError} (hr : r ∈ l) (he : normalizeSegment r = .error e) :
    ∃ e2, normalizeSegments l = .error e2 := by
  induction l with
  | nil => exact absurd hr (by simp)
  | cons s rest ih =>
    rcases List.mem_cons.mp hr with rfl | hmem
    · exact ⟨e, by unfold normalizeSegments; rw [he]; rfl⟩
    · cases hs : normalizeSegment s with
      | error e3 => exact ⟨e3, by unfold normalizeSegments; rw [hs]; rfl⟩
      | ok seg0 =>
        obtain ⟨e2, herr⟩ := ih hmem
        exact ⟨e2, by unfold normalizeSegments; rw [hs, herr]; rfl⟩

/-- Scanning skips every leading bucket whose identifier differs from the
true one. -/
theorem findHashMatch_skip {pre rest : List RawHashMatch} {vid : String}
    (hpre : ∀ b ∈ pre, b.video_id ≠ vid) :
    findHashMatch (pre ++ rest) vid = findHashMatch rest vid := by
  induction pre with
  | nil => rfl
  | cons b t ih =>
    simp only [List.cons_append, findHashMatch]
    rw [if_neg (hpre b (by simp))]
    exact ih fun x hx => hpre x (by simp [hx])

/-- Scanning a list with no matching bucket finds nothing. -/
theorem findHashMatch_none {l : List RawHashMatch} {vid : String}
    (h : ∀ b ∈ l, b.video_id ≠ vid) : findHashMatch l vid = none := by
  induction l with
  | nil => rfl
  | cons b t ih =>
    simp only [findHashMatch]
    rw [if_neg (h b (by simp))]
    exact ih fun x hx => h x (by simp [hx])

/-- C1: In privacy mode, decoding scans the returned hash buckets in order
for the first bucket whose videoID equals the caller's true video identifier
(exact, case-sensitive string equality); if such a bucket exists, the result
is exactly that bucket's segment list (normalized), with every other bucket
ignored; if no bucket matches, the call fails with the NoMatchingVideoHash
error even when non-matching buckets with non-empty segment lists are
present; and a matching bucket with an empty segment list yields a
successful empty result, not an error. -/
theorem privacy_decode_first_match (response pre post : List RawHashMatch)
    (b : RawHashMatch) (vid : String) :
    (response = pre ++ b :: post → (∀ x ∈ pre, x.video_id ≠ vid) →
      b.video_id = vid →
      processResponsePrivate response vid = normalizeSegments b.segments)
    ∧ ((∀ x ∈ response, x.video_id ≠ vid) →
      processResponsePrivate response vid = .error .NoMatchingVideoHash)
    ∧ (response = pre ++ b :: post → (∀ x ∈ pre, x.video_id ≠ vid) →
      b.video_id = vid → b.segments = [] →
      processResponsePrivate response vid = .ok []) := by
  have main : response = pre ++ b :: post → (∀ x ∈ pre, x.video_id ≠ vid) →
      b.video_id = vid →
      processResponsePrivate response vid = normalizeSegments b.segments := by
    intro hresp hpre hb
    subst hresp
    unfold processResponsePrivate decodeResponsePrivate
    rw [findHashMatch_skip hpre]
    simp only [findHashMatch]
    rw [if_pos hb]
    rfl
  refine ⟨main, ?_, ?_⟩
  · intro hall
    unfold processResponsePrivate decodeResponsePrivate
    rw [findHashMatch_none hall]
    rfl
  · intro hresp hpre hb hempty
    rw [main hresp hpre hb, hempty]
    rfl

/-- Witness for C1: a response of one non-matching non-empty bucket followed
by a matching empty bucket yields a successful empty result; a response of
only the non-matching bucket yields NoMatchingVideoHash. -/
theorem privacy_decode_first_match_witness :
    processResponsePrivate [exBucketOther, exBucketMatch] "vid1" = .ok []
    ∧ processResponsePrivate [exBucketOther] "vid1"
      = .error .NoMatchingVideoHash :=
  ⟨(privacy_decode_first_match [exBucketOther, exBucketMatch] [exBucketOther]
      [] exBucketMatch "vid1").2.2 rfl (by decide) rfl rfl,
   (privacy_decode_first_match [exBucketOther] [] [] exBucketOther
      "vid1").2.1 (by decide)⟩

/-- C3: Normalization of a raw segment record runs its range checks in the
fixed order start > end, then start < 0, then end < 0; the first failing
check determines the outcome, producing a BadData error whose message
includes the offending numeric values; and any such failure aborts the
entire batch, so the call returns no partial segment list. -/
theorem validation_order_and_batch_abort (s : RawSegment) (l : List RawSegment) :
    (s.segment.1 > s.segment.2 →
      normalizeSegment s = .error (.BadData ("segment start ("
        ++ fmtF32 s.segment.1 ++ ") > end (" ++ fmtF32 s.segment.2 ++ ")")))
    ∧ (¬ s.segment.1 > s.segment.2 → s.segment.1 < 0 →
      normalizeSegment s = .error (.BadData ("segment start ("
        ++ fmtF32 s.segment.1 ++ ") < 0")))
    ∧ (¬ s.segment.1 > s.segment.2 → ¬ s.segment.1 < 0 → s.segment.2 < 0 →
      normalizeSegment s = .error (.BadData ("segment end ("
        ++ fmtF32 s.segment.2 ++ ") < 0")))
    ∧ (∀ e, normalizeSegment s = .error e → s ∈ l →
      ∃ e2, normalizeSegments l = .error e2) := by
  refine ⟨?_, ?_, ?_, ?_⟩
  · intro h1
    unfold normalizeSegment
    rw [if_pos h1]
  · intro h1 h2
    unfold normalizeSegment
    rw [if_neg h1, if_pos h2]
  · intro h1 h2 h3
    unfold normalizeSegment
    rw [if_neg h1, if_neg h2, if_pos h3]
  · intro e he hmem
    exact normalizeSegments_mem_error hmem he

/-- Witness for C3: the reversed record [2, 1] fails with the
start-greater-than-end message carrying both values, and its batch of one
fails as a whole. -/
theorem validation_order_and_batch_abort_witness :
    normalizeSegment exBadRaw = .error (.BadData ("segment start ("
      ++ fmtF32 2 ++ ") > end (" ++ fmtF32 1 ++ ")"))
    ∧ normalizeSegments [exBadRaw] = .error (.BadData ("segment start ("
      ++ fmtF32 2 ++ ") > end (" ++ fmtF32 1 ++ ")")) :=
  ⟨(validation_order_and_batch_abort exBadRaw [exBadRaw]).1 (by decide),
   by
    have h := (validation_order_and_batch_abort exBadRaw [exBadRaw]).1 (by decide)
    unfold normalizeSegments
    rw [h]
    rfl⟩

/-- Shared core of the C2 family: every segment of a successful batch has a
well-formed time payload, because the three range checks passed for its
source record. -/
theorem normalizeSegments_ok_times {l : List RawSegment} {segs : List Segment}
    (h : normalizeSegments l = .ok segs) :
    ∀ seg ∈ segs, actionableTimesOk seg.segment := by
  intro seg hseg
  obtain ⟨r, hrmem, hok⟩ := normalizeSegments_ok_mem h seg hseg
  obtain ⟨h1, h2, h3, kind, action, hk, ha, rfl⟩ := normalizeSegment_ok_inv hok
  have hs1 : 0 ≤ r.segment.1 := not_lt.mp h2
  have hs2 : 0 ≤ r.segment.2 := not_lt.mp h3
  have hle : r.segment.1 ≤ r.segment.2 := not_lt.mp h1
  cases kind <;>
    simp only [actionableTimesOk, timeSectionOk] <;>
    first
    | exact ⟨hs1, hle, hs2⟩
    | exact hs1

/-- C2 (counterexample to the literal claim): read literally, "all carried
time values are non-negative" covers the `video_duration_upon_submission`
field as well, but the code never validates it: a record with a valid range
and a negative video duration normalizes successfully and the negative
duration is carried through. -/
theorem all_carried_times_counterexample :
    ¬ (∀ (c : Client) (video_id : String) (cats : AcceptedCategories)
        (response : List RawSegment) (segs : List Segment),
        (fetch_segments_plain c video_id cats response).2 = .ok segs →
        ∀ seg ∈ segs, allCarriedTimesNonneg seg) := by
  intro hclaim
  have h := hclaim exClient "vid1" ["sponsor"] [exNegDurRaw] [exNegDurSeg]
    rfl exNegDurSeg (List.mem_singleton.mpr rfl)
  exact absurd h.2 (by decide)

/-- C2 (amended): for every Segment in a successfully returned list of
fetch_segments_with_required (either mode; fetch_segments delegates to it),
the time values of the range payload are non-negative, and for every
section-shaped segment (every kind except Highlight) start ≤ end.  The
`video_duration_upon_submission` field is excluded: it is passed through
unvalidated. -/
theorem segment_payload_times_invariant (hashHex : String → String)
    (c : Client) (video_id : String) (cats : AcceptedCategories)
    (required_segments : List String) (response : List RawSegment)
    (responseP : List RawHashMatch) (segs : List Segment) :
    ((fetch_segments_with_required_plain c video_id cats required_segments
        response).2 = .ok segs →
      ∀ seg ∈ segs, actionableTimesOk seg.segment)
    ∧ (∀ req, fetch_segments_with_required_private hashHex c video_id cats
        required_segments responseP = some (req, .ok segs) →
      ∀ seg ∈ segs, actionableTimesOk seg.segment) := by
  constructor
  · intro h
    exact normalizeSegments_ok_times h
  · intro req h
    unfold fetch_segments_with_required_private at h
    cases hb : buildRequestPrivate hashHex c video_id cats required_segments with
    | none => rw [hb] at h; exact absurd h (by simp)
    | some req2 =>
      rw [hb] at h
      simp only [Option.some.injEq, Prod.mk.injEq] at h
      have hp : processResponsePrivate responseP video_id = .ok segs := h.2
      unfold processResponsePrivate decodeResponsePrivate at hp
      cases hf : findHashMatch responseP video_id with
      | none => rw [hf] at hp; exact absurd hp (by simp [Except.bind])
      | some raws =>
        rw [hf] at hp
        exact normalizeSegments_ok_times hp

/-- Witness for C2 (amended): the sponsor segment normalized from the range
[1, 2] has a well-formed section payload. -/
theorem segment_payload_times_invariant_witness :
    actionableTimesOk exSponsorSeg.segment :=
  (segment_payload_times_invariant exHashHex exClient "vid1" ["sponsor"] []
    [exSponsorRaw] [] [exSponsorSeg]).1 rfl exSponsorSeg
    (List.mem_singleton.mpr rfl)

/-- C4: For every raw record whose category maps to the Highlight kind, the
resulting Segment is the Highlight variant carrying a TimePoint whose point
equals the record's first range element (start); the second range element
(end) is discarded and appears nowhere in the output: two records agreeing
on everything but `end` normalize to the same Segment. -/
theorem highlight_discards_end {s : RawSegment} {seg : Segment}
    (hk : api_convert_segment_kind s.category = .ok .Highlight)
    (h : normalizeSegment s = .ok seg) :
    seg.segment = .Highlight { point := s.segment.1 }
    ∧ ∀ (s2 : RawSegment) (seg2 : Segment),
        s2.category = s.category → s2.action_type = s.action_type →
        s2.uuid = s.uuid → s2.locked = s.locked → s2.votes = s.votes →
        s2.video_duration_upon_submission = s.video_duration_upon_submission →
        s2.segment.1 = s.segment.1 →
        normalizeSegment s2 = .ok seg2 → seg2 = seg := by
  obtain ⟨h1, h2, h3, kind, action, hk2, ha, rfl⟩ := normalizeSegment_ok_inv h
  have hkind : kind = .Highlight := by
    have := hk2.symm.trans hk
    injection this
  subst hkind
  refine ⟨rfl, ?_⟩
  intro s2 seg2 hcat hact huuid hlocked hvotes hdur hstart hok2
  obtain ⟨g1, g2, g3, kind2, action2, gk, ga, rfl⟩ := normalizeSegment_ok_inv hok2
  rw [hcat] at gk
  have hkind2 : kind2 = .Highlight := by
    have := gk.symm.trans hk2
    injection this
  subst hkind2
  rw [hact] at ga
  have haction : action2 = action := by
    have := ga.symm.trans ha
    injection this
  subst haction
  simp only [Segment.mk.injEq]
  simp [hstart, huuid, hlocked, hvotes, hdur]

/-- Witness for C4: the record with category `poi_highlight` and range
[3, 7] yields the Highlight variant at point 3, and the record with range
[3, 99] yields the very same Segment. -/
theorem highlight_discards_end_witness :
    exHighlightSeg.segment = ActionableSegment.Highlight { point := 3 }
    ∧ exHighlightSeg = exHighlightSeg :=
  ⟨(@highlight_discards_end exHighlightRaw exHighlightSeg rfl rfl).1,
   (@highlight_discards_end exHighlightRaw exHighlightSeg rfl rfl).2
     exHighlightRaw2 exHighlightSeg rfl rfl rfl rfl rfl rfl rfl rfl⟩

/-- C5: For every valid plain-mode response body, fetch_segments returns
exactly one domain Segment per wire record, in the same order as the wire
records; in particular, for every record with category "sponsor" the
corresponding Segment is the Sponsor variant carrying TimeSection{start,
end} with both values unchanged from the wire record. -/
theorem plain_mode_one_per_record_in_order (c : Client) (video_id : String)
    (cats : AcceptedCategories) (response : List RawSegment)
    (segs : List Segment)
    (h : (fetch_segments_plain c video_id cats response).2 = .ok segs) :
    segs.length = response.length
    ∧ (∀ i (h1 : i < response.length) (h2 : i < segs.length),
        normalizeSegment (response.get ⟨i, h1⟩) = .ok (segs.get ⟨i, h2⟩))
    ∧ (∀ i (h1 : i < response.length) (h2 : i < segs.length),
        (response.get ⟨i, h1⟩).category = "sponsor" →
        (segs.get ⟨i, h2⟩).segment
          = .Sponsor { start := (response.get ⟨i, h1⟩).segment.1,
                       «end» := (response.get ⟨i, h1⟩).segment.2 }) := by
  have hn : normalizeSegments response = .ok segs := h
  obtain ⟨hlen, hget⟩ := normalizeSegments_ok_get hn
  refine ⟨hlen, hget, ?_⟩
  intro i h1 h2 hcat
  obtain ⟨-, -, -, kind, action, hk, ha, heq⟩ :=
    normalizeSegment_ok_inv (hget i h1 h2)
  rw [hcat] at hk
  have hok : Except.ok ActionableSegmentKind.Sponsor = Except.ok kind :=
    (show api_convert_segment_kind "sponsor" = .ok .Sponsor from rfl).symm.trans hk
  injection hok with hok
  rw [heq, ← hok]

/-- Witness for C5: the one-record sponsor response yields a one-segment
list whose only element is the Sponsor variant with the unchanged section
[1, 2]. -/
theorem plain_mode_one_per_record_witness :
    ([exSponsorSeg].get ⟨0, Nat.zero_lt_one⟩).segment
      = ActionableSegment.Sponsor { start := 1, «end» := 2 } :=
  (plain_mode_one_per_record_in_order exClient "vid1" ["sponsor"]
    [exSponsorRaw] [exSponsorSeg] rfl).2.2 0 Nat.zero_lt_one Nat.zero_lt_one rfl

/-- Key membership fact for C6: the common query-parameter list contains
the `requiredSegments` key exactly when the required list is non-empty. -/
theorem commonQuery_requiredSegments_mem (c : Client)
    (cats : AcceptedCategories) (required_segments : List String) :
    "requiredSegments" ∈ (commonQuery c cats required_segments).map Prod.fst
      ↔ required_segments ≠ [] := by
  cases required_segments with
  | nil => simp [commonQuery]
  | cons a t => simp [commonQuery]

/-- C6: The requiredSegments query parameter is attached to the outbound
request if and only if the caller-supplied required-segment-id list is
non-empty; when the list is empty the parameter is absent entirely.  Both
request-building modes are covered. -/
theorem required_segments_param_iff (hashHex : String → String) (c : Client)
    (video_id : String) (cats : AcceptedCategories)
    (required_segments : List String) :
    ("requiredSegments"
        ∈ (buildRequestPlain c video_id cats required_segments).query.map Prod.fst
      ↔ required_segments ≠ [])
    ∧ (∀ req,
        buildRequestPrivate hashHex c video_id cats required_segments = some req →
        ("requiredSegments" ∈ req.query.map Prod.fst
          ↔ required_segments ≠ [])) := by
  constructor
  · rw [← commonQuery_requiredSegments_mem c cats required_segments]
    simp [buildRequestPlain]
  · intro req h
    simp only [buildRequestPrivate] at h
    cases hs : sliceTo (hashHex video_id) c.hash_prefix_length with
    | none => rw [hs] at h; exact absurd h (by simp)
    | some p =>
      rw [hs] at h
      simp only [Option.some.injEq] at h
      subst h
      rw [← commonQuery_requiredSegments_mem c cats required_segments]

/-- Witness for C6: with a one-element required list the parameter is
present in the plain-mode request and in the privacy-mode request;
evaluating the empty-list side of the iff shows absence. -/
theorem required_segments_param_iff_witness :
    "requiredSegments"
      ∈ (buildRequestPlain exClient "vid1" ["sponsor"] ["uuid1"]).query.map Prod.fst
    ∧ ("requiredSegments"
        ∈ (buildRequestPlain exClient "vid1" ["sponsor"]
            ([] : List String)).query.map Prod.fst
      ↔ ([] : List String) ≠ []) :=
  ⟨(required_segments_param_iff exHashHex exClient "vid1" ["sponsor"]
      ["uuid1"]).1.mpr (by decide),
   (required_segments_param_iff exHashHex exClient "vid1" ["sponsor"] []).1⟩

/-- C7: When privacy mode is enabled, the request path contains only the
configured-length prefix of the hex SHA-256 digest of the video identifier
(appended to the /skipSegments endpoint), and the plaintext video identifier
appears nowhere in the outbound request: no videoID query parameter is
attached, and the request depends on the identifier only through its
digest — any identifier with the same digest produces the identical
request. -/
theorem private_request_hides_plaintext (hashHex : String → String)
    (c : Client) (video_id : String) (cats : AcceptedCategories)
    (required_segments : List String) (req : Request)
    (h : buildRequestPrivate hashHex c video_id cats required_segments
      = some req) :
    req.url = c.base_url ++ "/skipSegments" ++ "/"
        ++ (hashHex video_id).take c.hash_prefix_length
    ∧ "videoID" ∉ req.query.map Prod.fst
    ∧ ∀ other_id, hashHex other_id = hashHex video_id →
        buildRequestPrivate hashHex c other_id cats required_segments
          = some req := by
  simp only [buildRequestPrivate] at h
  cases hs : sliceTo (hashHex video_id) c.hash_prefix_length with
  | none => rw [hs] at h; exact absurd h (by simp)
  | some p =>
    rw [hs] at h
    simp only [Option.some.injEq] at h
    subst h
    have hp : p = (hashHex video_id).take c.hash_prefix_length := by
      unfold sliceTo at hs
      by_cases hle : c.hash_prefix_length ≤ (hashHex video_id).length
      · rw [if_pos hle] at hs
        injection hs with hs
        exact hs.symm
      · rw [if_neg hle] at hs
        exact absurd hs (by simp)
    refine ⟨by rw [hp], ?_, ?_⟩
    · cases required_segments with
      | nil => simp [commonQuery]
      | cons a t => simp [commonQuery]
    · intro other_id hother
      simp only [buildRequestPrivate, hother]
      rw [hs]

/-- Witness for C7: with the concrete digest function and a 4-character
prefix, the built request's URL ends in the 4-character digest prefix and
carries no videoID parameter. -/
theorem private_request_hides_plaintext_witness :
    exPrivateRequest.url = exClient.base_url ++ "/skipSegments" ++ "/"
      ++ (exHashHex "vid1").take exClient.hash_prefix_length
    ∧ "videoID" ∉ exPrivateRequest.query.map Prod.fst :=
  ⟨(private_request_hides_plaintext exHashHex exClient "vid1" ["sponsor"] []
      exPrivateRequest rfl).1,
   (private_request_hides_plaintext exHashHex exClient "vid1" ["sponsor"] []
      exPrivateRequest rfl).2.1⟩

/-- C8: For every raw record, the locked wire value is coerced to a boolean
with 0 mapping to false and any non-zero value mapping to true, and the
uuid, votes, action_type (after enumeration lookup), and
video_duration_upon_submission fields pass through to the returned Segment
unchanged. -/
theorem locked_coercion_and_passthrough {s : RawSegment} {seg : Segment}
    (h : normalizeSegment s = .ok seg) :
    seg.locked = (s.locked != 0)
    ∧ (s.locked = 0 → seg.locked = false)
    ∧ (s.locked ≠ 0 → seg.locked = true)
    ∧ seg.uuid = s.uuid
    ∧ seg.votes = s.votes
    ∧ seg.video_duration_upon_submission = s.video_duration_upon_submission
    ∧ api_convert_action_type s.action_type = .ok seg.action_type := by
  obtain ⟨hu, hl, hv, hd, ha⟩ := normalizeSegment_ok_fields h
  refine ⟨hl, ?_, ?_, hu, hv, hd, ha⟩
  · intro h0
    rw [hl, h0]
    rfl
  · intro h0
    rw [hl]
    simpa using h0

/-- Witness for C8: the record with wire locked value 2 yields a Segment
with locked = true, and its uuid, votes, duration and mute action pass
through. -/
theorem locked_coercion_and_passthrough_witness :
    exLockedSeg.locked = true
    ∧ exLockedSeg.uuid = "u8"
    ∧ exLockedSeg.votes = -4
    ∧ exLockedSeg.video_duration_upon_submission = 9
    ∧ api_convert_action_type "mute" = .ok exLockedSeg.action_type :=
  ⟨(@locked_coercion_and_passthrough exLockedRaw exLockedSeg rfl).2.2.1
      (by decide),
   (@locked_coercion_and_passthrough exLockedRaw exLockedSeg rfl).2.2.2.1,
   (@locked_coercion_and_passthrough exLockedRaw exLockedSeg rfl).2.2.2.2.1,
   (@locked_coercion_and_passthrough exLockedRaw exLockedSeg rfl).2.2.2.2.2.1,
   (@locked_coercion_and_passthrough exLockedRaw exLockedSeg rfl).2.2.2.2.2.2⟩

/-- C9: For every video identifier and accepted-categories value,
fetch_segments(video_id, accepted_categories) returns exactly the same
result as fetch_segments_with_required(video_id, accepted_categories, [])
with an empty required-segment list — in both compilation modes, the former
is the latter applied to the empty list. -/
theorem fetch_segments_delegates_to_with_required (hashHex : String → String)
    (c : Client) (video_id : String) (cats : AcceptedCategories)
    (response : List RawSegment) (responseP : List RawHashMatch) :
    fetch_segments_plain c video_id cats response
      = fetch_segments_with_required_plain c video_id cats [] response
    ∧ fetch_segments_private hashHex c video_id cats responseP
      = fetch_segments_with_required_private hashHex c video_id cats []
          responseP :=
  ⟨rfl, rfl⟩

/-- C10: In privacy mode, the hash-prefix extraction slices the hex digest
as video_id_hash[0..hash_prefix_length]; under the precondition
hash_prefix_length ≤ 64 (the length of a hex-encoded SHA-256 digest) the
slice is in bounds and the operation is total, yielding the request whose
path carries the prefix; for hash_prefix_length > 64 the call panics
(modelled as `none`) instead of returning an Error. -/
theorem hash_prefix_slice_in_bounds (hashHex : String → String) (c : Client)
    (video_id : String) (cats : AcceptedCategories)
    (required_segments : List String)
    (hlen : (hashHex video_id).length = 64) :
    (c.hash_prefix_length ≤ 64 →
      buildRequestPrivate hashHex c video_id cats required_segments
        = some { url := c.base_url ++ "/skipSegments" ++ "/"
                   ++ (hashHex video_id).take c.hash_prefix_length
                 query := commonQuery c cats required_segments })
    ∧ (64 < c.hash_prefix_length →
      buildRequestPrivate hashHex c video_id cats required_segments
        = none) := by
  constructor
  · intro hle
    simp only [buildRequestPrivate, sliceTo, hlen]
    rw [if_pos hle]
  · intro hgt
    simp only [buildRequestPrivate, sliceTo, hlen]
    rw [if_neg (by omega)]

/-- Witness for C10: with the 64-character concrete digest, the
4-character-prefix client builds the request, and the 65-character-prefix
client panics. -/
theorem hash_prefix_slice_in_bounds_witness :
    buildRequestPrivate exHashHex exClient "vid1" ["sponsor"] []
      = some exPrivateRequest
    ∧ buildRequestPrivate exHashHex exClient65 "vid1" ["sponsor"] []
      = none :=
  ⟨(hash_prefix_slice_in_bounds exHashHex exClient "vid1" ["sponsor"] []
      rfl).1 (by decide),
   (hash_prefix_slice_in_bounds exHashHex exClient65 "vid1" ["sponsor"] []
      rfl).2 (by decide)⟩

end SponsorBlock
